import Mathlib

/-!
Verification development for the stock data synchronization service
(`app.py`, `get_data/get_data.py`).

The Flask/HTTP layer, yfinance, pandas, SQLAlchemy and MySQL are external
collaborators; they are embedded shallowly:

* Python string helpers (`str.split()`, `str.lower()`, `str.replace` with
  one-character arguments) are re-implemented structurally over character
  lists so that all definitions reduce by `rfl`/`decide`.
* The database is a map from table names to lists of rows; `to_sql` with
  `if_exists='append'` appends, creating the table when absent.
* `pd.to_numeric` (default `errors='raise'`) is modelled on a small value
  type: numeric values pass through, `NaN` stays `NaN`, a numeric string
  parses, any other string raises.  Floats are modelled by `Int`, which is
  enough for every property considered here (none depends on fractional
  arithmetic).
* The `task_lock` mutex in `app.py` makes the check-and-set of
  `task_running` in `webhook_trigger`, and the reset in the `finally` of
  `run_task_in_background`, atomic sections; accordingly the coordinator is
  modelled as a transition system whose events (trigger request, worker
  completion) are single atomic steps.
-/

namespace StockAI

/-! ### Python string primitives -/

/-- Characters on which Python's argument-less `str.split()` splits. -/
def isPySpace (c : Char) : Bool :=
  c = ' ' || c = '\t' || c = '\n' || c = '\r' || c = '\x0b' || c = '\x0c'

/-- Worker for `pySplit`: `acc` holds the current field, reversed. -/
def pySplitGo : List Char → List Char → List String
  | [], acc => if acc.isEmpty then [] else [String.mk acc.reverse]
  | c :: cs, acc =>
    if isPySpace c then
      if acc.isEmpty then pySplitGo cs [] else String.mk acc.reverse :: pySplitGo cs []
    else pySplitGo cs (c :: acc)

/-- Python `s.split()` with no arguments: split on runs of whitespace,
discarding empty fields. -/
def pySplit (s : String) : List String := pySplitGo s.data []

/-- Python `s.lower()` restricted to the ASCII range, which is all the code
compares (`auth_type.lower() != "bearer"`). -/
def pyLower (s : String) : String := String.mk (s.data.map Char.toLower)

/-! ### `app.py`: authentication decorator -/

/-- Outcome of the `require_token` decorator's checks. -/
inductive AuthResult
  | ok
  /-- Header `Authorization` absent, or present but falsy (empty string). -/
  | missingHeader
  /-- header splits into exactly two fields but the scheme is not `bearer`
  (case-insensitively) or the token does not match the secret. -/
  | invalidToken
  /-- Splitting the header does not yield exactly two fields, so the tuple
  unpacking raises `ValueError`. -/
  | malformedHeader
deriving DecidableEq

/-- The checks performed by `require_token` in `app.py` on the
`Authorization` header (`none` = header absent). -/
def requireTokenCheck (secret : String) (header : Option String) : AuthResult :=
  match header with
  | none => .missingHeader
  | some h =>
    if h = "" then .missingHeader
    else
      match pySplit h with
      | [authType, token] =>
        if pyLower authType = "bearer" ∧ token = secret then .ok else .invalidToken
      | _ => .malformedHeader

/-! ### `app.py`: task coordinator -/

/-- HTTP status of the webhook endpoint's response, as far as the claims
are concerned. -/
inductive TriggerResponse
  /-- Status 401: rejected by `require_token`. -/
  | unauthorized
  /-- Status 429: a task is already running. -/
  | alreadyRunning
  /-- Status 202: task accepted and started in the background. -/
  | accepted
deriving DecidableEq

/-- Coordinator state: the global `task_running` flag, plus a ghost counter
of background workers that have been started and have not yet finished
(threads spawned by `webhook_trigger` whose `run_task_in_background` has not
returned). -/
structure CoordState where
  taskRunning : Bool
  activeWorkers : Nat
deriving DecidableEq

/-- Process start: `task_running = False`, no worker thread exists. -/
def coordInit : CoordState := ⟨false, 0⟩

/-- Body of `webhook_trigger` after authentication.  The source reads
`task_running` and sets it to `True` inside `with task_lock:`, so the
check-and-set is one atomic step.  When the flag is set, it responds 429
and starts nothing; otherwise it sets the flag, spawns one worker thread
and responds 202. -/
def webhookTrigger (st : CoordState) : TriggerResponse × CoordState :=
  if st.taskRunning then (.alreadyRunning, st)
  else (.accepted, ⟨true, st.activeWorkers + 1⟩)

/-- One webhook request end to end: `require_token` then, only on success,
`webhook_trigger`. -/
def handleRequest (secret : String) (header : Option String) (st : CoordState) :
    TriggerResponse × CoordState :=
  match requireTokenCheck secret header with
  | .ok => webhookTrigger st
  | _ => (.unauthorized, st)

/-- How the body of `run_task_in_background` ends: `run_data_collection()`
either returns normally or raises (the `except Exception` arm). -/
inductive RunOutcome
  | completed
  | raised
deriving DecidableEq

/-- State change performed by `run_task_in_background` when it ends.  On
both exit paths the `finally:` block (under `task_lock`) clears
`task_running`; the worker thread itself terminates. -/
def runTaskInBackground (st : CoordState) (outcome : RunOutcome) : CoordState :=
  match outcome with
  | .completed => ⟨false, st.activeWorkers - 1⟩
  | .raised => ⟨false, st.activeWorkers - 1⟩

/-- The sequence of assignments to `task_running` that
`run_task_in_background` performs, per outcome: the `try` body and the
`except` arm never write the flag, and the `finally:` block writes `False`
once. -/
def workerFlagWrites (outcome : RunOutcome) : List Bool :=
  match outcome with
  | .completed => [false]
  | .raised => [false]

/-- Events observable at the coordinator: an incoming webhook request
(with its `Authorization` header), or the completion of a background
worker.  Each is atomic thanks to `task_lock`. -/
inductive Event
  | trigger (header : Option String)
  | finish (outcome : RunOutcome)

/-- Single atomic step of the coordinator.  A `finish` event can only be
emitted by an existing worker thread, so it is undefined (an inadmissible
trace) when no worker is active. -/
def step (secret : String) (st : CoordState) : Event → Option CoordState
  | .trigger header => some (handleRequest secret header st).2
  | .finish outcome =>
    if st.activeWorkers = 0 then none else some (runTaskInBackground st outcome)

/-- Run a trace of events from a state. -/
def execTrace (secret : String) (st : CoordState) : List Event → Option CoordState
  | [] => some st
  | e :: es =>
    match step secret st e with
    | none => none
    | some st2 => execTrace secret st2 es

/-- Coordinator invariant: the flag is set exactly while one worker is
active. -/
def coordInv (st : CoordState) : Prop :=
  st.activeWorkers = if st.taskRunning then 1 else 0

theorem coordInv_init : coordInv coordInit := rfl

theorem coordInv_step {secret : String} {st st2 : CoordState} {e : Event}
    (hinv : coordInv st) (h : step secret st e = some st2) : coordInv st2 := by
  cases e with
  | trigger header =>
    simp only [step, Option.some.injEq] at h
    subst h
    unfold handleRequest
    cases requireTokenCheck secret header <;>
      simp only [webhookTrigger] <;>
      first
        | exact hinv
        | (split
           · exact hinv
           · simp_all [coordInv])
  | finish outcome =>
    simp only [step] at h
    split at h
    · exact absurd h (by simp)
    · rename_i hne
      simp only [Option.some.injEq] at h
      subst h
      have hle : st.activeWorkers ≤ 1 := by
        simp only [coordInv] at hinv
        split at hinv <;> omega
      cases outcome <;>
        · simp only [runTaskInBackground, coordInv]
          simp only [Bool.false_eq_true, if_false]
          omega

theorem coordInv_execTrace {secret : String} {st st2 : CoordState} {tr : List Event}
    (hinv : coordInv st) (h : execTrace secret st tr = some st2) : coordInv st2 := by
  induction tr generalizing st with
  | nil =>
    simp only [execTrace, Option.some.injEq] at h
    subst h; exact hinv
  | cons e es ih =>
    simp only [execTrace] at h
    cases hs : step secret st e with
    | none => rw [hs] at h; exact absurd h (by simp)
    | some stm =>
      rw [hs] at h
      exact ih (coordInv_step hinv hs) h

/-! ### `get_data.py`: values, rows, coercion -/

/-- A cell value as it comes from the external source or sits in a
dataframe column: a number (floats modelled by `Int`), pandas `NaN`
(null), or a string. -/
inductive PdValue
  | num (x : Int)
  | nan
  | str (s : String)
deriving DecidableEq

/-- Digits-to-number accumulator for `parseNum`. -/
def natOfDigits (cs : List Char) : Nat :=
  cs.foldl (fun n c => 10 * n + (c.toNat - 48)) 0

/-- Nonempty all-digit check. -/
def allDigits (cs : List Char) : Bool :=
  !cs.isEmpty && cs.all (fun c => '0' ≤ c && c ≤ '9')

/-- Numeric-string grammar used by the `pd.to_numeric` model: an optional
minus sign followed by digits (the fractional/scientific forms of pandas
are outside the `Int` value model; what matters for the claims is only
that some strings parse and others raise). -/
def parseNum (s : String) : Option Int :=
  match s.data with
  | '-' :: rest => if allDigits rest then some (-(natOfDigits rest : Int)) else none
  | cs => if allDigits cs then some (natOfDigits cs : Int) else none

/-- One application of `pd.to_numeric` with its default `errors='raise'`:
numbers pass through, `NaN` stays `NaN`, a numeric string is parsed, and a
non-numeric string raises `ValueError`. -/
def toNumeric (v : PdValue) : Except String PdValue :=
  match v with
  | .num x => .ok (.num x)
  | .nan => .ok .nan
  | .str s =>
    match parseNum s with
    | some x => .ok (.num x)
    | none => .error "Unable to parse string"

/-- Whether `toNumeric` succeeds on the value. -/
def coercible (v : PdValue) : Bool :=
  match toNumeric v with
  | .ok _ => true
  | .error _ => false

/-- Total variant of `toNumeric` (meaningful on coercible cells). -/
def coerceTotal (v : PdValue) : PdValue :=
  match toNumeric v with
  | .ok w => w
  | .error _ => v

/-- A row as returned by `yf.Ticker(...).history` after `reset_index()`:
`Date` is a timestamp, modelled as (calendar day, time of day) with days
counted from 1950-01-01; the five market columns hold raw cell values. -/
structure RawRow where
  Date : Nat × Nat
  Open : PdValue
  High : PdValue
  Low : PdValue
  Close : PdValue
  Volume : PdValue
deriving DecidableEq

/-- A persisted row: `Date` is a pure calendar date (days since
1950-01-01). -/
structure Row where
  Date : Nat
  Open : PdValue
  High : PdValue
  Low : PdValue
  Close : PdValue
  Volume : PdValue
deriving DecidableEq

/-- Every numeric cell of the row is coercible. -/
def rowCoercible (r : RawRow) : Bool :=
  coercible r.Open && coercible r.High && coercible r.Low &&
    coercible r.Close && coercible r.Volume

/-- Normalization of one row: `pd.to_datetime(...).dt.date` keeps the
calendar day and drops the time of day, and each of the five numeric
columns goes through `pd.to_numeric`. -/
def normalizeRow (r : RawRow) : Except String Row :=
  match toNumeric r.Open with
  | .error e => .error e
  | .ok o =>
    match toNumeric r.High with
    | .error e => .error e
    | .ok h =>
      match toNumeric r.Low with
      | .error e => .error e
      | .ok l =>
        match toNumeric r.Close with
        | .error e => .error e
        | .ok c =>
          match toNumeric r.Volume with
          | .error e => .error e
          | .ok v => .ok ⟨r.Date.1, o, h, l, c, v⟩

/-- Total variant of `normalizeRow`, equal to it on coercible rows. -/
def normalizeRowTotal (r : RawRow) : Row :=
  ⟨r.Date.1, coerceTotal r.Open, coerceTotal r.High, coerceTotal r.Low,
    coerceTotal r.Close, coerceTotal r.Volume⟩

/-- Normalization of a fetched batch.  Pandas applies `pd.to_numeric`
column by column and raises as soon as one column holds a non-coercible
cell; row-wise sequencing is observationally the same: it succeeds on
exactly the batches whose cells are all coercible, with the same rows on
success. -/
def normalizeBatch : List RawRow → Except String (List Row)
  | [] => .ok []
  | r :: rs =>
    match normalizeRow r with
    | .error e => .error e
    | .ok row =>
      match normalizeBatch rs with
      | .error e => .error e
      | .ok rows => .ok (row :: rows)

/-! ### `get_data.py`: database, watermark, per-ticker processing -/

/-- The MySQL database: a map from table names to the list of rows of that
table, `none` when the table does not exist. -/
def DB := String → Option (List Row)

/-- The table has been created. -/
def DB.hasTable (db : DB) (name : String) : Bool := (db name).isSome

/-- Rows of a table (empty when absent). -/
def DB.getTable (db : DB) (name : String) : List Row := (db name).getD []

/-- Model of `df.to_sql(name, if_exists='append')`: append the rows, creating the
table when absent. -/
def DB.appendRows (db : DB) (name : String) (rows : List Row) : DB :=
  fun m => if m = name then some (db.getTable name ++ rows) else db m

/-- A database with no tables. -/
def DB.empty : DB := fun _ => none

/-- Python `ticker.replace('.', '_').replace('-', '_')`: with one-character
arguments, `str.replace` is a character-wise substitution. -/
def sanitizeTableName (ticker : String) : String :=
  String.mk ((ticker.data.map fun c => if c = '.' then '_' else c).map
    fun c => if c = '-' then '_' else c)

/-- The fixed epoch floor `"1950-01-01"`, day 0 of the date scale. -/
def epochFloor : Nat := 0

/-- Maximum persisted `Date` of a table: `SELECT MAX(Date)`, which is SQL
`NULL` (here `none`) on an empty table. -/
def maxStoredDate (rows : List Row) : Option Nat :=
  (rows.map Row.Date).max?

/-- Start of the fetch window for a table, as computed at the top of the
per-ticker loop: `"1950-01-01"` when the table does not exist or
`MAX(Date)` is null, otherwise the day after the maximum stored date. -/
def computeStartDate (db : DB) (tableName : String) : Nat :=
  if db.hasTable tableName then
    match maxStoredDate (db.getTable tableName) with
    | some d => d + 1
    | none => epochFloor
  else epochFloor

/-- External collaborators of one run: whether the watermark phase
(`engine.connect()` / `SELECT MAX(Date)` / parsing its result) raises for
a table; what `yf.Ticker(t).history(start=s)` returns or raises; whether
the `to_sql` write raises. -/
structure Env where
  connectFail : String → Bool
  history : String → Nat → Except String (List RawRow)
  toSqlFail : String → List Row → Bool

/-- Body of the `try:` block of the per-ticker loop of
`fetch_historical_data`: compute the fetch window from the stored
watermark, fetch, skip empty results (`continue`), normalize, append.
Returns the new database and whether rows were appended (`false` is the
logged no-op), or the raised error. -/
def processTicker (env : Env) (db : DB) (ticker : String) :
    Except String (DB × Bool) :=
  let tableName := sanitizeTableName ticker
  if env.connectFail tableName then .error "database error"
  else
    match env.history ticker (computeStartDate db tableName) with
    | .error e => .error e
    | .ok raw =>
      if raw.isEmpty then .ok (db, false)
      else
        match normalizeBatch raw with
        | .error e => .error e
        | .ok rows =>
          if env.toSqlFail tableName rows then .error "to_sql failed"
          else .ok (db.appendRows tableName rows, true)

/-- Observable outcome of one run of `fetch_historical_data`: the final
database, the tickers iterated, the `(ticker, error)` pairs logged by the
per-ticker `except` arm, and the tickers logged as having no new data. -/
structure RunResult where
  db : DB
  attempted : List String
  errors : List (String × String)
  noops : List String

/-- The loop of `fetch_historical_data`: every ticker of the list is
processed in order; a raise from `processTicker` is caught by the
`except Exception` arm, logged with the ticker, and iteration continues
with the database unchanged. -/
def fetch_historical_data (env : Env) (db : DB) : List String → RunResult
  | [] => ⟨db, [], [], []⟩
  | ticker :: rest =>
    match processTicker env db ticker with
    | .ok (db2, appended) =>
      let r := fetch_historical_data env db2 rest
      ⟨r.db, ticker :: r.attempted, r.errors,
        if appended then r.noops else ticker :: r.noops⟩
    | .error e =>
      let r := fetch_historical_data env db rest
      ⟨r.db, ticker :: r.attempted, (ticker, e) :: r.errors, r.noops⟩

/-! ### `get_data.py`: ticker universe -/

/-- Characters of the class `[A-Z-.]`: the range `A-Z` plus the literal
characters `-` and `.`. -/
def tickerCoreChar (c : Char) : Bool :=
  ('A' ≤ c && c ≤ 'Z') || c = '-' || c = '.'

/-- Python `re.search(r"^[A-Z-.]+$", t)` as a boolean: without
`re.MULTILINE`, `^` anchors only at the start of the string, and `$`
matches at the end of the string or just before one newline at the end,
so the pattern accepts a nonempty run of class characters optionally
followed by a single final newline. -/
def tickerRegexMatches (t : String) : Bool :=
  (!t.data.isEmpty && t.data.all tickerCoreChar) ||
    (t.data.length ≥ 2 && t.data.getLast? = some '\n' &&
      t.data.dropLast.all tickerCoreChar)

/-- Python `len(t)` (a character count, like `String.length`). -/
def pyLen (t : String) : Nat := t.data.length

/-- The filter applied to the aggregated candidates:
`re.search(r"^[A-Z-.]+$", t) and len(t) <= 64`. -/
def validTicker (t : String) : Bool :=
  tickerRegexMatches t && pyLen t ≤ 64

/-- Python `sorted(list(set(tickers)))`: the duplicate-free list of the
elements in ascending string order. -/
def sortedUnique (l : List String) : List String :=
  List.insertionSort (· ≤ ·) l.dedup

/-- The four upstream listing calls of `fetch_all_tickers`, each either
returning its list or raising. -/
structure TickerSources where
  sp500 : Except String (List String)
  dow : Except String (List String)
  nasdaq : Except String (List String)
  etfs : Except String (List String)

/-- Contents of `tickers` after the first `try:` block of
`fetch_all_tickers`: the three `tickers.extend(...)` calls run in order
inside one block, so a raise in one call keeps what earlier calls already
extended and skips the later calls of the block. -/
def indexGroupTickers (src : TickerSources) : List String :=
  match src.sp500 with
  | .error _ => []
  | .ok l1 =>
    match src.dow with
    | .error _ => l1
    | .ok l2 =>
      match src.nasdaq with
      | .error _ => l1 ++ l2
      | .ok l3 => l1 ++ l2 ++ l3

/-- Contents added by the second `try:` block (ETFs), which has its own
handlers (`AttributeError` and `Exception` both just skip). -/
def etfGroupTickers (src : TickerSources) : List String :=
  match src.etfs with
  | .error _ => []
  | .ok l => l

/-- Model of `fetch_all_tickers`: aggregate the two blocks, deduplicate and sort,
then keep the candidates passing the regex-and-length filter. -/
def fetch_all_tickers (src : TickerSources) : List String :=
  (sortedUnique (indexGroupTickers src ++ etfGroupTickers src)).filter validTicker

/-! ### Helper lemmas -/

theorem getTable_appendRows (db : DB) (t name : String) (rows : List Row) :
    (db.appendRows t rows).getTable name =
      if name = t then db.getTable t ++ rows else db.getTable name := by
  unfold DB.appendRows DB.getTable
  split <;> simp_all

theorem fetch_nil (env : Env) (db : DB) :
    fetch_historical_data env db [] = ⟨db, [], [], []⟩ := rfl

theorem fetch_cons_ok {env : Env} {db db2 : DB} {t : String} {b : Bool}
    (ts : List String) (hp : processTicker env db t = .ok (db2, b)) :
    fetch_historical_data env db (t :: ts) =
      ⟨(fetch_historical_data env db2 ts).db,
        t :: (fetch_historical_data env db2 ts).attempted,
        (fetch_historical_data env db2 ts).errors,
        if b then (fetch_historical_data env db2 ts).noops
        else t :: (fetch_historical_data env db2 ts).noops⟩ := by
  conv_lhs => rw [fetch_historical_data]
  rw [hp]

theorem fetch_cons_error {env : Env} {db : DB} {t e : String}
    (ts : List String) (hp : processTicker env db t = .error e) :
    fetch_historical_data env db (t :: ts) =
      ⟨(fetch_historical_data env db ts).db,
        t :: (fetch_historical_data env db ts).attempted,
        (t, e) :: (fetch_historical_data env db ts).errors,
        (fetch_historical_data env db ts).noops⟩ := by
  conv_lhs => rw [fetch_historical_data]
  rw [hp]

theorem fetch_attempted (env : Env) (l : List String) (db : DB) :
    (fetch_historical_data env db l).attempted = l := by
  induction l generalizing db with
  | nil => rfl
  | cons t ts ih =>
    cases hp : processTicker env db t with
    | ok pr =>
      obtain ⟨db2, b⟩ := pr
      rw [fetch_cons_ok ts hp]
      simp [ih]
    | error e =>
      rw [fetch_cons_error ts hp]
      simp [ih]

theorem processTicker_ok_mono {env : Env} {db db2 : DB} {ticker : String} {b : Bool}
    (h : processTicker env db ticker = .ok (db2, b)) (name : String) :
    ∃ suf, db2.getTable name = db.getTable name ++ suf := by
  simp only [processTicker] at h
  split at h
  · exact absurd h (by simp)
  · split at h
    · exact absurd h (by simp)
    · rename_i raw _
      split at h
      · simp only [Except.ok.injEq, Prod.mk.injEq] at h
        exact ⟨[], by rw [← h.1]; simp⟩
      · split at h
        · exact absurd h (by simp)
        · rename_i rows _
          split at h
          · exact absurd h (by simp)
          · simp only [Except.ok.injEq, Prod.mk.injEq] at h
            refine ⟨if name = sanitizeTableName ticker then rows else [], ?_⟩
            rw [← h.1, getTable_appendRows]
            split <;> simp_all

theorem fetch_db_mono (env : Env) (l : List String) (db : DB) (name : String) :
    ∃ suf, (fetch_historical_data env db l).db.getTable name
      = db.getTable name ++ suf := by
  induction l generalizing db with
  | nil => exact ⟨[], by simp [fetch_nil]⟩
  | cons t ts ih =>
    cases hp : processTicker env db t with
    | ok pr =>
      obtain ⟨db2, b⟩ := pr
      obtain ⟨s1, hs1⟩ := processTicker_ok_mono hp name
      obtain ⟨s2, hs2⟩ := ih db2
      rw [fetch_cons_ok ts hp]
      exact ⟨s1 ++ s2, by simp only [hs2, hs1, List.append_assoc]⟩
    | error e =>
      obtain ⟨s2, hs2⟩ := ih db
      rw [fetch_cons_error ts hp]
      exact ⟨s2, hs2⟩

theorem fetch_split (env : Env) (l1 l2 : List String) (db : DB) :
    (fetch_historical_data env db (l1 ++ l2)).db =
      (fetch_historical_data env (fetch_historical_data env db l1).db l2).db ∧
    (fetch_historical_data env db (l1 ++ l2)).errors =
      (fetch_historical_data env db l1).errors ++
        (fetch_historical_data env (fetch_historical_data env db l1).db l2).errors := by
  induction l1 generalizing db with
  | nil => simp [fetch_nil]
  | cons t ts ih =>
    simp only [List.cons_append]
    cases hp : processTicker env db t with
    | ok pr =>
      obtain ⟨db2, b⟩ := pr
      rw [fetch_cons_ok (ts ++ l2) hp, fetch_cons_ok ts hp]
      exact ih db2
    | error e =>
      rw [fetch_cons_error (ts ++ l2) hp, fetch_cons_error ts hp]
      refine ⟨(ih db).1, ?_⟩
      simp [(ih db).2]

theorem toNumeric_of_coercible {v : PdValue} (h : coercible v = true) :
    toNumeric v = .ok (coerceTotal v) := by
  unfold coercible at h
  unfold coerceTotal
  cases hv : toNumeric v with
  | ok w => simp
  | error e => rw [hv] at h; exact absurd h (by simp)

theorem coercible_of_toNumeric_ok {v : PdValue} {w : PdValue}
    (h : toNumeric v = .ok w) : coercible v = true := by
  unfold coercible
  rw [h]

theorem normalizeRow_coercible {r : RawRow} (h : rowCoercible r = true) :
    normalizeRow r = .ok (normalizeRowTotal r) := by
  unfold rowCoercible at h
  simp only [Bool.and_eq_true] at h
  obtain ⟨⟨⟨⟨h1, h2⟩, h3⟩, h4⟩, h5⟩ := h
  unfold normalizeRow normalizeRowTotal
  rw [toNumeric_of_coercible h1, toNumeric_of_coercible h2,
    toNumeric_of_coercible h3, toNumeric_of_coercible h4,
    toNumeric_of_coercible h5]

theorem normalizeRow_fail {r : RawRow} (h : rowCoercible r = false) :
    ∃ e, normalizeRow r = .error e := by
  cases h1 : toNumeric r.Open with
  | error e => exact ⟨e, by unfold normalizeRow; rw [h1]⟩
  | ok o =>
    cases h2 : toNumeric r.High with
    | error e => exact ⟨e, by unfold normalizeRow; rw [h1, h2]⟩
    | ok hi =>
      cases h3 : toNumeric r.Low with
      | error e => exact ⟨e, by unfold normalizeRow; rw [h1, h2, h3]⟩
      | ok lo =>
        cases h4 : toNumeric r.Close with
        | error e => exact ⟨e, by unfold normalizeRow; rw [h1, h2, h3, h4]⟩
        | ok c =>
          cases h5 : toNumeric r.Volume with
          | error e => exact ⟨e, by unfold normalizeRow; rw [h1, h2, h3, h4, h5]⟩
          | ok v =>
            exfalso
            rw [rowCoercible, coercible_of_toNumeric_ok h1,
              coercible_of_toNumeric_ok h2, coercible_of_toNumeric_ok h3,
              coercible_of_toNumeric_ok h4, coercible_of_toNumeric_ok h5] at h
            exact absurd h (by simp)

theorem mem_fetch_all_tickers {src : TickerSources} {t : String}
    (hv : validTicker t = true)
    (h : t ∈ indexGroupTickers src ++ etfGroupTickers src) :
    t ∈ fetch_all_tickers src := by
  unfold fetch_all_tickers
  rw [List.mem_filter]
  refine ⟨?_, hv⟩
  unfold sortedUnique
  rw [List.mem_insertionSort]
  exact List.mem_dedup.mpr h

/-! ### Claims -/

/-- C1.  Single-flight: along every admissible event trace from process
start, at most one background run is active in every reachable state, and
an authenticated trigger request arriving while the state is Running gets
the distinct 429 rejection and changes nothing, so it starts no background
run.  The check of `task_running` and its transition to Running are one
atomic step of the trace semantics, which is exactly what the
`with task_lock:` block around them provides with respect to other trigger
requests. -/
theorem single_flight_invariant (secret : String) (tr : List Event)
    (st : CoordState) (h : execTrace secret coordInit tr = some st) :
    st.activeWorkers ≤ 1 ∧
      (st.taskRunning = true →
        ∀ header, requireTokenCheck secret header = .ok →
          handleRequest secret header st = (.alreadyRunning, st)) := by
  have hinv := coordInv_execTrace coordInv_init h
  constructor
  · rw [coordInv] at hinv
    split at hinv <;> omega
  · intro hrun header hok
    rw [handleRequest, hok, webhookTrigger, hrun]
    simp

theorem single_flight_invariant_witness :
    (⟨true, 1⟩ : CoordState).activeWorkers ≤ 1 ∧
      handleRequest "s" (some "Bearer s") ⟨true, 1⟩
        = (.alreadyRunning, ⟨true, 1⟩) := by
  have h := single_flight_invariant "s" [Event.trigger (some "Bearer s")]
    ⟨true, 1⟩ (by decide)
  exact ⟨h.1, h.2 rfl (some "Bearer s") (by decide)⟩

/-- C2.  Whether the sync run returns normally or raises, the background
worker resets the running flag to false, and the worker writes the flag
exactly once (the single `finally:` write), returning the coordinator to
Idle on every exit path. -/
theorem background_reset_on_all_paths (st : CoordState) (outcome : RunOutcome) :
    (runTaskInBackground st outcome).taskRunning = false ∧
      workerFlagWrites outcome = [false] := by
  cases outcome <;> exact ⟨rfl, rfl⟩

/-- C9.  A trigger request whose Authorization header is missing (absent or
falsy), malformed (not splittable into exactly a scheme and a token), or
carrying a wrong scheme or token, is answered 401 with the coordinator
state unchanged, whatever that state was: the flag keeps its prior value
and no background run is started. -/
theorem auth_failure_frame (secret : String) (header : Option String)
    (st : CoordState)
    (h : requireTokenCheck secret header = .missingHeader ∨
      requireTokenCheck secret header = .malformedHeader ∨
      requireTokenCheck secret header = .invalidToken) :
    handleRequest secret header st = (.unauthorized, st) := by
  rcases h with h | h | h <;> rw [handleRequest, h]

theorem auth_failure_frame_witness :
    handleRequest "s" none ⟨true, 1⟩ = (.unauthorized, ⟨true, 1⟩) ∧
      handleRequest "s" (some "Bearer s extra") ⟨false, 0⟩
        = (.unauthorized, ⟨false, 0⟩) ∧
      handleRequest "s" (some "Basic s") ⟨false, 0⟩
        = (.unauthorized, ⟨false, 0⟩) ∧
      handleRequest "s" (some "Bearer wrong") ⟨true, 1⟩
        = (.unauthorized, ⟨true, 1⟩) :=
  ⟨auth_failure_frame "s" none ⟨true, 1⟩ (Or.inl (by decide)),
    auth_failure_frame "s" (some "Bearer s extra") ⟨false, 0⟩
      (Or.inr (Or.inl (by decide))),
    auth_failure_frame "s" (some "Basic s") ⟨false, 0⟩
      (Or.inr (Or.inr (by decide))),
    auth_failure_frame "s" (some "Bearer wrong") ⟨true, 1⟩
      (Or.inr (Or.inr (by decide)))⟩

/-- C4.  Fetch-window computation: when the entity's table does not exist
the window starts at the epoch floor 1950-01-01 (day 0 of the date scale);
when the table exists but `MAX(Date)` is null, it also starts at the epoch
floor; otherwise it starts at the maximum stored date plus one day. -/
theorem fetch_window_computation (db : DB) (name : String) :
    (db.hasTable name = false → computeStartDate db name = epochFloor) ∧
      (db.hasTable name = true → maxStoredDate (db.getTable name) = none →
        computeStartDate db name = epochFloor) ∧
      (∀ d, maxStoredDate (db.getTable name) = some d →
        computeStartDate db name = d + 1) := by
  refine ⟨?_, ?_, ?_⟩
  · intro h
    rw [computeStartDate, h]
    simp
  · intro h hm
    rw [computeStartDate, h, hm]
    simp
  · intro d hm
    have ht : db.hasTable name = true := by
      rcases hdb : db name with _ | rows
      · exfalso
        have hg : DB.getTable db name = [] := by
          rw [DB.getTable, hdb]
          rfl
        rw [hg] at hm
        exact absurd hm (by simp [maxStoredDate])
      · rw [DB.hasTable, hdb]
        rfl
    rw [computeStartDate, ht, hm]
    simp

/-- Example row used by concrete witnesses. -/
def rowEx : Row := ⟨5, .num 10, .num 12, .num 9, .num 11, .num 1000⟩

/-- Example database: table `AAPL` holds one row dated day 5, table
`EMPTY` exists but has no rows, and no other table exists. -/
def dbEx : DB := fun n =>
  if n = "AAPL" then some [rowEx] else if n = "EMPTY" then some [] else none

theorem fetch_window_computation_witness :
    computeStartDate dbEx "MSFT" = epochFloor ∧
      computeStartDate dbEx "EMPTY" = epochFloor ∧
      computeStartDate dbEx "AAPL" = 6 :=
  ⟨(fetch_window_computation dbEx "MSFT").1 (by decide),
    (fetch_window_computation dbEx "EMPTY").2.1 (by decide) (by decide),
    (fetch_window_computation dbEx "AAPL").2.2 5 (by decide)⟩

/-- C3.  Bulkhead isolation: if processing entity `x` raises (at the
watermark query, the fetch, the coercion, or the persist — any error
`processTicker` can produce), then over the full list `pre ++ x :: post`
every entity is still attempted in order, the failure is logged under
`x`'s identifier, the run continues over `post` exactly as if `x` had been
skipped (so later successes are persisted), and nothing any entity had
already persisted is lost: every table of the final database extends the
corresponding initial table. -/
theorem bulkhead_isolation (env : Env) (db : DB) (pre post : List String)
    (x e : String)
    (hx : processTicker env (fetch_historical_data env db pre).db x
      = .error e) :
    (fetch_historical_data env db (pre ++ x :: post)).attempted
        = pre ++ x :: post ∧
      (x, e) ∈ (fetch_historical_data env db (pre ++ x :: post)).errors ∧
      (fetch_historical_data env db (pre ++ x :: post)).db =
        (fetch_historical_data env
          (fetch_historical_data env db pre).db post).db ∧
      ∀ name, ∃ suf,
        (fetch_historical_data env db (pre ++ x :: post)).db.getTable name
          = db.getTable name ++ suf := by
  obtain ⟨hdb, herr⟩ := fetch_split env pre (x :: post) db
  refine ⟨fetch_attempted env (pre ++ x :: post) db, ?_, ?_, ?_⟩
  · rw [herr, fetch_cons_error post hx]
    simp
  · rw [hdb, fetch_cons_error post hx]
  · intro name
    exact fetch_db_mono env (pre ++ x :: post) db name

/-- Environment used by the bulkhead witness: the source raises for ticker
`BAD` and returns one good row for every other ticker; the database layer
never fails. -/
def envEx : Env :=
  ⟨fun _ => false,
    fun t _ => if t = "BAD" then .error "boom"
      else .ok [⟨(3, 7), .num 10, .num 12, .num 9, .num 11, .num 1000⟩],
    fun _ _ => false⟩

theorem bulkhead_isolation_witness :
    (fetch_historical_data envEx DB.empty ["AAPL", "BAD", "GOOG"]).attempted
        = ["AAPL", "BAD", "GOOG"] ∧
      ("BAD", "boom")
        ∈ (fetch_historical_data envEx DB.empty ["AAPL", "BAD", "GOOG"]).errors := by
  have h := bulkhead_isolation envEx DB.empty ["AAPL"] ["GOOG"] "BAD" "boom" rfl
  exact ⟨h.1, h.2.1⟩

/-- C5.  Idempotent incrementality: when the watermark phase succeeds and
the external source returns no rows for the recomputed window of every
entity in the list — which is what a second run immediately after a
completed run sees, the window starting the day after the persisted
maximum date — the run appends nothing (the database is unchanged), logs
no error, and records every entity as a no-op. -/
theorem idempotent_incrementality (env : Env) (db : DB) (l : List String)
    (hc : ∀ t ∈ l, env.connectFail (sanitizeTableName t) = false)
    (hh : ∀ t ∈ l,
      env.history t (computeStartDate db (sanitizeTableName t)) = .ok []) :
    (fetch_historical_data env db l).db = db ∧
      (fetch_historical_data env db l).errors = [] ∧
      (fetch_historical_data env db l).noops = l := by
  induction l with
  | nil => exact ⟨rfl, rfl, rfl⟩
  | cons t ts ih =>
    have hpt : processTicker env db t = .ok (db, false) := by
      rw [processTicker]
      simp only [hc t (by simp), hh t (by simp)]
      rfl
    rw [fetch_cons_ok ts hpt]
    obtain ⟨h1, h2, h3⟩ := ih (fun u hu => hc u (by simp [hu]))
      (fun u hu => hh u (by simp [hu]))
    exact ⟨h1, h2, by simp [h3]⟩

/-- Environment of the second, no-new-data run: every source call returns
an empty frame. -/
def envNoNew : Env := ⟨fun _ => false, fun _ _ => .ok [], fun _ _ => false⟩

theorem idempotent_incrementality_witness :
    (fetch_historical_data envNoNew dbEx ["AAPL", "EMPTY", "MSFT"]).db = dbEx ∧
      (fetch_historical_data envNoNew dbEx ["AAPL", "EMPTY", "MSFT"]).errors
        = [] ∧
      (fetch_historical_data envNoNew dbEx ["AAPL", "EMPTY", "MSFT"]).noops
        = ["AAPL", "EMPTY", "MSFT"] :=
  idempotent_incrementality envNoNew dbEx ["AAPL", "EMPTY", "MSFT"]
    (fun _ _ => rfl) (fun _ _ => rfl)

/-- C6, counterexample.  The claim says a raising source still lets each
remaining source contribute, but the S&P 500, Dow and NASDAQ calls share
one `try:` block: here the S&P 500 call raises, the Dow call would have
succeeded with the valid ticker `DOW`, yet `DOW` is not collected. -/
theorem discovery_source_counterexample :
    (TickerSources.mk (.error "boom") (.ok ["DOW"]) (.ok ["NDAQ"])
        (.ok ["ETF"])).dow = .ok ["DOW"] ∧
      validTicker "DOW" = true ∧
      "DOW" ∉ fetch_all_tickers
        (TickerSources.mk (.error "boom") (.ok ["DOW"]) (.ok ["NDAQ"])
          (.ok ["ETF"])) := by
  refine ⟨rfl, rfl, ?_⟩
  decide

/-- C6, amended.  Fault tolerance holds at the granularity of the two
`try:` blocks, not of single sources: a failure anywhere in the index
group (S&P 500, Dow, NASDAQ) never loses the ETF results and vice versa,
and within the index group a raise skips only the calls after the raising
one, keeping what earlier calls already collected — so a valid ticker from
a successful ETF call, from a successful S&P 500 call, from a successful
Dow call whose preceding S&P 500 call also succeeded, or from a successful
NASDAQ call whose preceding S&P 500 and Dow calls also succeeded, is
always in the resolved universe, regardless of what the other group
does. -/
theorem discovery_group_fault_tolerance (src : TickerSources) (t : String)
    (hv : validTicker t = true) :
    ((∃ l, src.etfs = .ok l ∧ t ∈ l) → t ∈ fetch_all_tickers src) ∧
      ((∃ l, src.sp500 = .ok l ∧ t ∈ l) → t ∈ fetch_all_tickers src) ∧
      ((∃ l1 l2, src.sp500 = .ok l1 ∧ src.dow = .ok l2 ∧ t ∈ l2) →
        t ∈ fetch_all_tickers src) ∧
      ((∃ l1 l2 l3, src.sp500 = .ok l1 ∧ src.dow = .ok l2 ∧
          src.nasdaq = .ok l3 ∧ t ∈ l3) →
        t ∈ fetch_all_tickers src) := by
  refine ⟨?_, ?_, ?_, ?_⟩
  · rintro ⟨l, hl, ht⟩
    refine mem_fetch_all_tickers hv (List.mem_append_right _ ?_)
    rw [etfGroupTickers, hl]
    exact ht
  · rintro ⟨l, hl, ht⟩
    refine mem_fetch_all_tickers hv (List.mem_append_left _ ?_)
    rw [indexGroupTickers, hl]
    rcases src.dow with _ | l2
    · exact ht
    · rcases src.nasdaq with _ | l3
      · exact List.mem_append_left _ ht
      · exact List.mem_append_left _ (List.mem_append_left _ ht)
  · rintro ⟨l1, l2, h1, h2, ht⟩
    refine mem_fetch_all_tickers hv (List.mem_append_left _ ?_)
    rw [indexGroupTickers, h1, h2]
    rcases src.nasdaq with _ | l3
    · exact List.mem_append_right _ ht
    · exact List.mem_append_left _ (List.mem_append_right _ ht)
  · rintro ⟨l1, l2, l3, h1, h2, h3, ht⟩
    refine mem_fetch_all_tickers hv (List.mem_append_left _ ?_)
    rw [indexGroupTickers, h1, h2, h3]
    exact List.mem_append_right _ ht

theorem discovery_group_fault_tolerance_witness :
    "ETF" ∈ fetch_all_tickers
        (TickerSources.mk (.error "down") (.error "down") (.error "down")
          (.ok ["ETF"])) ∧
      "SPX" ∈ fetch_all_tickers
        (TickerSources.mk (.ok ["SPX"]) (.error "down") (.ok ["NDAQ"])
          (.error "down")) ∧
      "NDAQ" ∈ fetch_all_tickers
        (TickerSources.mk (.ok []) (.ok []) (.ok ["NDAQ"])
          (.error "down")) :=
  ⟨(discovery_group_fault_tolerance
      (TickerSources.mk (.error "down") (.error "down") (.error "down")
        (.ok ["ETF"])) "ETF" (by decide)).1 ⟨["ETF"], rfl, by decide⟩,
    (discovery_group_fault_tolerance
      (TickerSources.mk (.ok ["SPX"]) (.error "down") (.ok ["NDAQ"])
        (.error "down")) "SPX" (by decide)).2.1 ⟨["SPX"], rfl, by decide⟩,
    (discovery_group_fault_tolerance
      (TickerSources.mk (.ok []) (.ok []) (.ok ["NDAQ"])
        (.error "down")) "NDAQ" (by decide)).2.2.2
      ⟨[], [], ["NDAQ"], rfl, rfl, rfl, by decide⟩⟩

/-- Raw row whose `Open` cell is a non-numeric string. -/
def rawBad : RawRow := ⟨(3, 7), .str "n/a", .num 12, .num 9, .num 11, .num 1000⟩

/-- Environment whose source returns the non-coercible row `rawBad`. -/
def envBad : Env := ⟨fun _ => false, fun _ _ => .ok [rawBad], fun _ _ => false⟩

/-- C7, counterexample.  The claim says a non-numeric value becomes null
rather than failing the row or the batch, but `pd.to_numeric` is called
with its default `errors='raise'`: one non-numeric `Open` cell makes the
whole batch raise, and the entity fails (caught by the per-entity
handler) instead of being persisted with a null. -/
theorem coercion_raise_counterexample :
    normalizeBatch [rawBad] = .error "Unable to parse string" ∧
      processTicker envBad DB.empty "AAPL" = .error "Unable to parse string" ∧
      (fetch_historical_data envBad DB.empty ["AAPL"]).errors
        = [("AAPL", "Unable to parse string")] :=
  ⟨rfl, rfl, rfl⟩

/-- C7, amended.  The Date field is normalized to a pure calendar date
(the time of day is dropped) and the five numeric columns are coerced to
numeric values, with `NaN` cells kept as null and numeric strings parsed —
but coercion uses the raising default of `pd.to_numeric`: when every cell
is coercible the batch succeeds with exactly the coerced rows, and when
any cell of any row is non-numeric the whole entity batch raises (and is
then caught by the per-entity bulkhead) rather than the value becoming
null. -/
theorem batch_coercion_behaviour (rows : List RawRow) :
    ((∀ r ∈ rows, rowCoercible r = true) →
      normalizeBatch rows = .ok (rows.map normalizeRowTotal)) ∧
      ((∃ r ∈ rows, rowCoercible r = false) →
        ∃ e, normalizeBatch rows = .error e) := by
  constructor
  · intro hall
    induction rows with
    | nil => rfl
    | cons r rs ih =>
      rw [normalizeBatch, normalizeRow_coercible (hall r (by simp)),
        ih (fun u hu => hall u (by simp [hu]))]
      rfl
  · rintro ⟨r, hr, hbad⟩
    induction rows with
    | nil => exact absurd hr (by simp)
    | cons a rs ih =>
      rcases List.mem_cons.mp hr with rfl | hmem
      · obtain ⟨e, he⟩ := normalizeRow_fail hbad
        exact ⟨e, by rw [normalizeBatch, he]⟩
      · cases ha : normalizeRow a with
        | error e => exact ⟨e, by rw [normalizeBatch, ha]⟩
        | ok row =>
          obtain ⟨e, he⟩ := ih hmem
          exact ⟨e, by rw [normalizeBatch, ha, he]⟩

/-- Raw row with a `NaN` volume and a numeric-string close, all
coercible. -/
def rawOkRow : RawRow := ⟨(3, 7), .num 10, .num 12, .num 9, .str "11", .nan⟩

theorem batch_coercion_behaviour_witness :
    normalizeBatch [rawOkRow] = .ok ([rawOkRow].map normalizeRowTotal) ∧
      ∃ e, normalizeBatch [rawBad, rawOkRow] = .error e :=
  ⟨(batch_coercion_behaviour [rawOkRow]).1 (by decide),
    (batch_coercion_behaviour [rawBad, rawOkRow]).2 ⟨rawBad, by decide, by decide⟩⟩

/-- C8, counterexample.  The claim says every identifier of the resolved
universe matches the safe-name alphabet, but the filter uses
`re.search(r"^[A-Z-.]+$", t)` and Python's `$` also matches just before a
newline that ends the string: the candidate consisting of `AB` followed by
a newline passes the filter and enters the universe even though its
characters are not all in the alphabet. -/
theorem universe_regex_newline_counterexample :
    "AB\n" ∈ fetch_all_tickers
        (TickerSources.mk (.ok ["AB\n"]) (.ok []) (.ok []) (.ok [])) ∧
      "AB\n".data.all tickerCoreChar = false ∧
      pyLen "AB\n" ≤ 64 := by
  refine ⟨?_, rfl, by decide⟩
  decide

/-- C8, amended.  Every identifier of the resolved universe is nonempty,
has length at most 64, and consists of characters from the safe-name
alphabet (uppercase letters, `-`, `.`) except that one trailing newline is
also admitted (the `$`-before-final-newline behavior of the regex); the
universe has no duplicates and is sorted; and every candidate rejected by
the filter (regex or length bound) is excluded. -/
theorem universe_validity_amended (src : TickerSources) :
    (∀ t ∈ fetch_all_tickers src,
      t.data ≠ [] ∧ pyLen t ≤ 64 ∧
        (t.data.all tickerCoreChar = true ∨
          (t.data.getLast? = some '\n' ∧ t.data.dropLast ≠ [] ∧
            t.data.dropLast.all tickerCoreChar = true))) ∧
      (fetch_all_tickers src).Nodup ∧
      List.Sorted (· ≤ ·) (fetch_all_tickers src) ∧
      ∀ t, validTicker t = false → t ∉ fetch_all_tickers src := by
  refine ⟨?_, ?_, ?_, ?_⟩
  · intro t ht
    have hv : validTicker t = true := (List.mem_filter.mp ht).2
    rw [validTicker, Bool.and_eq_true] at hv
    obtain ⟨hre, hlen⟩ := hv
    rw [tickerRegexMatches, Bool.or_eq_true] at hre
    rcases hre with hre | hre
    · rw [Bool.and_eq_true] at hre
      exact ⟨by simpa using hre.1, by simpa using hlen, Or.inl hre.2⟩
    · simp only [Bool.and_eq_true, decide_eq_true_eq] at hre
      obtain ⟨⟨hlen2, hlast⟩, hall⟩ := hre
      have hld := t.data.length_dropLast
      refine ⟨?_, by simpa using hlen, Or.inr ⟨hlast, ?_, hall⟩⟩
      · intro hcon
        rw [hcon] at hlen2
        simp at hlen2
      · intro hcon
        have h0 : t.data.dropLast.length = 0 := by rw [hcon]; rfl
        omega
  · exact ((List.perm_insertionSort _ _).nodup_iff.mpr
      (List.nodup_dedup _)).filter _
  · exact List.Pairwise.filter _ (List.sorted_insertionSort _ _)
  · intro t hbad hmem
    have hv := (List.mem_filter.mp hmem).2
    rw [hbad] at hv
    exact absurd hv (by simp)

/-- Source collection whose aggregate holds a duplicate and an invalid
candidate. -/
def srcEx : TickerSources := ⟨.ok ["BB", "AA", "AA", "a!"], .ok [], .ok [], .ok []⟩

theorem universe_validity_amended_witness :
    ("AA".data ≠ [] ∧ pyLen "AA" ≤ 64 ∧
        ("AA".data.all tickerCoreChar = true ∨
          ("AA".data.getLast? = some '\n' ∧ "AA".data.dropLast ≠ [] ∧
            "AA".data.dropLast.all tickerCoreChar = true))) ∧
      (fetch_all_tickers srcEx).Nodup ∧
      "a!" ∉ fetch_all_tickers srcEx :=
  ⟨(universe_validity_amended srcEx).1 "AA"
      (mem_fetch_all_tickers (by decide) (by decide)),
    (universe_validity_amended srcEx).2.1,
    (universe_validity_amended srcEx).2.2.2 "a!" (by decide)⟩

/-- C10.  Table-name sanitization is not injective: `BRK.B` and `BRK-B`
are distinct identifiers, both pass the validity filter, and both sanitize
to the table name `BRK_B`; consequently, for every database the two
entities compute their fetch window from the same watermark, and rows
persisted for one land in (and extend) the table read under the other's
name — two distinct entities share one storage table. -/
theorem sanitize_table_name_collision :
    "BRK.B" ≠ "BRK-B" ∧
      validTicker "BRK.B" = true ∧
      validTicker "BRK-B" = true ∧
      sanitizeTableName "BRK.B" = sanitizeTableName "BRK-B" ∧
      sanitizeTableName "BRK.B" = "BRK_B" ∧
      (∀ db : DB, computeStartDate db (sanitizeTableName "BRK.B")
        = computeStartDate db (sanitizeTableName "BRK-B")) ∧
      (∀ (db : DB) (rows : List Row),
        (db.appendRows (sanitizeTableName "BRK.B") rows).getTable
            (sanitizeTableName "BRK-B")
          = db.getTable (sanitizeTableName "BRK.B") ++ rows) :=
  ⟨by decide, by decide, by decide, by decide, by decide,
    fun _ => rfl, fun _ _ => rfl⟩

end StockAI
